import Mathlib

/-! # rlTiles: the tile-map data model of `rlTileMap.h`

A shallow embedding of the data model and the inline lookups of
`src/rlTiles/rlTileMap.h`, with the properties claimed for them.

Conventions of the embedding:

* a C++ `int` is an `Int` known to lie in `[-2^31, 2^31)`; arithmetic on `int`
  is the mathematical operation followed by `wrapInt32` (two's complement);
* a `std::vector<T>` is a `List T`; a read `v[i]` is the partial `v[i]?`, so a
  read out of bounds is visible as `none`;
* a `float` is an element of a carrier type `F` with a zero: the code of the
  header stores and returns such values and never computes with them; the
  projection `GetDisplayLocation`, whose body the header lacks, computes in a
  field `F`;
* a `std::map<int, T>` is an association list searched from the front.
-/

namespace RLTiles

/-! ## Machine integers -/

/-- The predicate saying that `z` is a value of the C++ type `int` (32 bits). -/
def isInt32 (z : Int) : Prop := -2147483648 ≤ z ∧ z ≤ 2147483647

instance (z : Int) : Decidable (isInt32 z) := by
  unfold isInt32; infer_instance

/-- The predicate saying that `z` is a value of the C++ type `int16_t`. -/
def isInt16 (z : Int) : Prop := -32768 ≤ z ∧ z ≤ 32767

instance (z : Int) : Decidable (isInt16 z) := by
  unfold isInt16; infer_instance

/-- Two's-complement reduction of a mathematical integer to the range of `int`. -/
def wrapInt32 (z : Int) : Int := (z + 2147483648) % 4294967296 - 2147483648

/-! ## raylib `Rectangle` -/

/-- The raylib `Rectangle`: four `float` fields, over the carrier `F`. -/
structure Rectangle (F : Type) where
  x : F
  y : F
  width : F
  height : F
  deriving DecidableEq, Repr

/-- The value `Rectangle{ 0,0,0,0 }`. -/
def Rectangle.zero {F : Type} [Zero F] : Rectangle F := ⟨0, 0, 0, 0⟩

/-! ## `RLTileSheet` -/

/-- The class `RLTileSheet`. -/
structure RLTileSheet (F : Type) where
  ID : Int := 0
  SheetSource : String := ""
  StartFrame : Int := 0
  Tiles : List (Rectangle F) := []

/-- The method `RLTileSheet::GetFrame`:
`int index = tileID - StartFrame;` then the guarded read `Tiles[index]`, else
`Rectangle{0,0,0,0}`. In `index < Tiles.size()` the `int` is converted to the
unsigned size type; the conjunct is only evaluated when `index >= 0`, where the
conversion keeps the value. The result is `none` exactly when the vector would
be read out of bounds. -/
def RLTileSheet.GetFrame {F : Type} [Zero F] (s : RLTileSheet F) (tileID : Int) :
    Option (Rectangle F) :=
  let index : Int := wrapInt32 (tileID - s.StartFrame)
  if index ≥ 0 ∧ index.toNat < s.Tiles.length then
    s.Tiles[index.toNat]?
  else
    some Rectangle.zero

/-- The enumeration `RLTiledMapTypes`. -/
inductive RLTiledMapTypes where
  | Orthographic
  | Isometric
  deriving DecidableEq, Repr

/-! ## `RLTile` and `RLTileLayer` -/

/-- The struct `RLTile`, with its default member initialisers; `TileID` is an
`int16_t`. The misspelt field name `FilpY` is the one of the source. -/
structure RLTile where
  FlipX : Bool := false
  FilpY : Bool := false
  FlipDiag : Bool := false
  TileID : Int := -1
  deriving DecidableEq, Repr

/-- The class `RLTileLayer`, with its default member initialisers. -/
structure RLTileLayer where
  Width : Int := 0
  Height : Int := 0
  TileWidth : Int := 0
  TileHeight : Int := 0
  IsObject : Bool := false
  Tiles : List RLTile := []
  ID : Int := 0
  name : String := ""
  deriving DecidableEq, Repr

/-! ## C strings and `atoi` -/

/-- The C string denoted by `s.c_str()`: the characters of `s` before its first
NUL character. -/
def c_str (s : String) : String :=
  String.mk (s.data.takeWhile (fun c => c ≠ Char.ofNat 0))

/-- The C library predicate `isspace` in the "C" locale: space, `\t`, `\n`,
`\v`, `\f`, `\r`. -/
def isspace (c : Char) : Bool :=
  c = ' ' || (9 ≤ c.toNat && c.toNat ≤ 13)

/-- The C library predicate `isdigit`. -/
def isdigit (c : Char) : Bool :=
  48 ≤ c.toNat && c.toNat ≤ 57

/-- The digit loop of `atoi`: `acc = 10 * acc + (c - 48)` while `c` is a
decimal digit. -/
def atoiDigits : List Char → Int → Int
  | [], acc => acc
  | c :: cs, acc =>
    if isdigit c then atoiDigits cs (10 * acc + ((c.toNat : Int) - 48)) else acc

/-- The sign and digits part of `atoi`, after the leading white space. -/
def atoiSigned : List Char → Int
  | [] => 0
  | c :: cs =>
    if c = '-' then -(atoiDigits cs 0)
    else if c = '+' then atoiDigits cs 0
    else atoiDigits (c :: cs) 0

/-- The C library function `atoi` (ISO C, `<stdlib.h>`; it is not code of this
repository): skip leading white space, read an optional sign, then the longest
run of decimal digits; no digits gives 0. The standard leaves the result
undefined when the number does not fit an `int`; here it is reduced to 32 bits. -/
def atoi (s : String) : Int :=
  wrapInt32 (atoiSigned (s.data.dropWhile isspace))

/-! ## `RLTileObject` -/

/-- The enumeration `RLTileObject::SubTypes`. -/
inductive RLTileObject.SubTypes where
  | None
  | Ellipse
  | Point
  | Polygon
  | Polyline
  | Text
  deriving DecidableEq, Repr

/-- The class `RLTileObject::Property`: three strings. The member `Type` is
`Type_` here, `Type` being reserved. -/
structure RLTileObject.Property where
  Name : String := ""
  Type_ : String := ""
  Value : String := ""
  deriving DecidableEq, Repr

/-- The method `Property::GetInt`. -/
def RLTileObject.Property.GetInt (p : RLTileObject.Property) : Int :=
  if p.Type_ ≠ "int" ∨ p.Value.length = 0 then 0
  else atoi (c_str p.Value)

/-- The method `Property::GetFloat`. The conversion `float(atof(...))` belongs to
the C library and to floating point; it is the argument `atof`. -/
def RLTileObject.Property.GetFloat {F : Type} [Zero F] (atof : String → F)
    (p : RLTileObject.Property) : F :=
  if p.Type_ ≠ "float" ∨ p.Value.length = 0 then 0
  else atof (c_str p.Value)

/-- The method `Property::GetString`: `return Value.c_str();`. -/
def RLTileObject.Property.GetString (p : RLTileObject.Property) : String :=
  c_str p.Value

/-- The class `RLTileObject`, with its default member initialisers
(`Bounds = {}` is the zero rectangle). The member `Type` is `Type_` here. -/
structure RLTileObject (F : Type) [Zero F] where
  ID : Int := 0
  Name : String := ""
  Type_ : String := ""
  Bounds : Rectangle F := Rectangle.zero
  Rotation : Int := 0
  GidTile : Int := -1
  Visible : Bool := true
  Template : String := ""
  Subtype : RLTileObject.SubTypes := RLTileObject.SubTypes.None
  Properties : List RLTileObject.Property := []

/-- The range-for loop of `RLTileObject::GetProperty` over the properties from
position `i` on. The returned pointer `&prop` is the position of the element in
`Properties` together with the element it points to. -/
def RLTileObject.findProperty (Name : String) :
    List RLTileObject.Property → Nat → Option (Nat × RLTileObject.Property)
  | [], _ => none
  | prop :: rest, i =>
    if prop.Name = Name then some (i, prop)
    else RLTileObject.findProperty Name rest (i + 1)

/-- The method `RLTileObject::GetProperty`; `none` is `nullptr`. -/
def RLTileObject.GetProperty {F : Type} [Zero F] (o : RLTileObject F) (Name : String) :
    Option (Nat × RLTileObject.Property) :=
  RLTileObject.findProperty Name o.Properties 0

/-! ## `RLTileObjectLayer` and `RLTileMap` -/

/-- The class `RLTileObjectLayer`: an `RLTileLayer` whose constructor sets
`IsObject = true`, with the objects of the layer. -/
structure RLTileObjectLayer (F : Type) [Zero F] extends RLTileLayer where
  IsObject := true
  ObjectGroup : List (RLTileObject F) := []

/-- A `std::map<int, V>` as the list of its entries. -/
abbrev StdMap (V : Type) := List (Int × V)

/-- The lookup `std::map::find`: the value stored under `key`, if any. -/
def StdMap.find {V : Type} : StdMap V → Int → Option V
  | [], _ => none
  | (k, v) :: rest, key => if k = key then some v else StdMap.find rest key

/-- The class `RLTileMap`. -/
structure RLTileMap (F : Type) [Zero F] where
  Sheets : StdMap (RLTileSheet F) := []
  Layers : StdMap RLTileLayer := []
  Objects : StdMap (RLTileObjectLayer F) := []
  MapType : RLTiledMapTypes := RLTiledMapTypes.Orthographic

/-- Modelled from the spec: the body of `RLTileMap::GetTile`, which the header
only declares (`RLTile GetTile(int x, int y, int layerID);`). The spec: it
"looks up the grid layer by `layerID`; if not found, or not a grid layer, or
`(x,y)` outside `[0,width)×[0,height)`, returns a default Tile with
`tileID = -1`. Otherwise returns `Layers[layerID].Tiles[y*width + x]` by value."
The index is the integer `y*width + x` of the spec; the read of `Tiles` is
partial, `none` being a read outside the vector. -/
def RLTileMap.GetTile {F : Type} [Zero F] (m : RLTileMap F) (x y layerID : Int) :
    Option RLTile :=
  match StdMap.find m.Layers layerID with
  | none => some {}
  | some layer =>
    if layer.IsObject then some {}
    else if x < 0 ∨ layer.Width ≤ x ∨ y < 0 ∨ layer.Height ≤ y then some {}
    else layer.Tiles[(y * layer.Width + x).toNat]?

/-! ## raylib `Vector2` and `RLTileLayer::GetDisplayLocation` -/

/-- The raylib `Vector2`: two `float` fields, over the carrier `F`. -/
structure Vector2 (F : Type) where
  x : F
  y : F
  deriving DecidableEq, Repr

/-- Modelled from the spec: the body of `RLTileLayer::GetDisplayLocation`, which
the header only declares
(`Vector2 GetDisplayLocation(int x, int y, RLTiledMapTypes mode);`). The spec:
"Orthographic: `position = (x * cellWidth, y * cellHeight)`. Isometric: standard
diamond projection — `position = ((x - y) * cellWidth/2, (x + y) * cellHeight/2)`."
The cell size is `TileWidth`, `TileHeight`. The arithmetic is that of the spec's
formulas, exact in a field `F` that holds the integers; the rounding of `float`
is not part of the model. -/
def RLTileLayer.GetDisplayLocation {F : Type} [Field F] (l : RLTileLayer) (x y : Int)
    (mode : RLTiledMapTypes) : Vector2 F :=
  match mode with
  | RLTiledMapTypes.Orthographic =>
    ⟨(x : F) * (l.TileWidth : F), (y : F) * (l.TileHeight : F)⟩
  | RLTiledMapTypes.Isometric =>
    ⟨((x : F) - (y : F)) * (l.TileWidth : F) / 2,
     ((x : F) + (y : F)) * (l.TileHeight : F) / 2⟩

/-! ## Decimal texts -/

/-- The text left after an optional sign `+` or `-`. -/
def dropSign : List Char → List Char
  | [] => []
  | c :: cs => if c = '-' ∨ c = '+' then cs else c :: cs

/-- Whether the text starts with a decimal digit. -/
def startsWithDigit : List Char → Bool
  | [] => false
  | c :: _ => isdigit c

/-- The text made of an optional leading `-` and the decimal digits `ds`, most
significant first. -/
def decimalText (neg : Bool) (ds : List Nat) : String :=
  String.mk ((if neg then ['-'] else []) ++ ds.map Nat.digitChar)

/-- The integer that the text `decimalText neg ds` denotes. -/
def decimalValue (neg : Bool) (ds : List Nat) : Int :=
  if neg then -((Nat.ofDigits 10 ds.reverse : Nat) : Int)
  else ((Nat.ofDigits 10 ds.reverse : Nat) : Int)

/-! ## Sample values -/

/-- A sheet whose first tile has id `-1` and which holds `2^31 + 1` equal
rectangles, so that its last tile has id `2^31 - 1`, the largest `int`. -/
def hugeSheet : RLTileSheet Int :=
  { StartFrame := -1, Tiles := List.replicate 2147483649 ⟨1, 1, 1, 1⟩ }

/-- A sheet of two rectangles whose first tile id is the largest `int`. -/
def lastSheet : RLTileSheet Int :=
  { StartFrame := 2147483647, Tiles := [⟨1, 1, 1, 1⟩, ⟨2, 2, 2, 2⟩] }

/-- A sheet of three rectangles with tile ids 5, 6, 7. -/
def smallSheet : RLTileSheet Int :=
  { StartFrame := 5, Tiles := [⟨0, 0, 32, 32⟩, ⟨32, 0, 32, 32⟩, ⟨64, 0, 32, 32⟩] }

/-- An object with three properties, two of them named `hp`. -/
def sampleObject : RLTileObject Int :=
  { Properties := [⟨"speed", "float", "1.5"⟩, ⟨"hp", "int", "7"⟩, ⟨"hp", "int", "8"⟩] }

/-- A 2 by 2 grid layer with id 3. -/
def gridLayer : RLTileLayer :=
  { Width := 2, Height := 2, TileWidth := 32, TileHeight := 32, ID := 3,
    Tiles := [{ TileID := 0 }, { TileID := 4, FlipX := true }, { TileID := 5 },
      { TileID := 6 }] }

/-- A layer with id 4 that is marked as an object layer. -/
def markedLayer : RLTileLayer :=
  { Width := 2, Height := 2, IsObject := true, ID := 4 }

/-- A map with the grid layer 3 and the marked layer 4. -/
def sampleMap : RLTileMap Int :=
  { Layers := [(3, gridLayer), (4, markedLayer)] }

/-- A sheet whose first tile id is the largest `int` and which holds
`2^31 - 32766` equal rectangles. -/
def wideSheet : RLTileSheet Int :=
  { StartFrame := 2147483647, Tiles := List.replicate 2147450882 ⟨1, 1, 1, 1⟩ }

/-- A sheet of one rectangle whose first tile id is 40000, beyond `int16_t`. -/
def lateSheet : RLTileSheet Int :=
  { StartFrame := 40000, Tiles := [⟨1, 1, 1, 1⟩] }

/-- The integer property `hp` with the text `7`. -/
def hpSeven : RLTileObject.Property := ⟨"hp", "int", "7"⟩

/-- The integer property `hp` with the text `8`. -/
def hpEight : RLTileObject.Property := ⟨"hp", "int", "8"⟩

/-- The float property `speed` with the text `1.5`. -/
def speedProp : RLTileObject.Property := ⟨"speed", "float", "1.5"⟩

/-! ## Machine integers: lemmas -/

theorem wrapInt32_eq_self (z : Int) (h : isInt32 z) : wrapInt32 z = z := by
  unfold isInt32 at h
  unfold wrapInt32
  omega

theorem wrapInt32_isInt32 (z : Int) : isInt32 (wrapInt32 z) := by
  unfold isInt32 wrapInt32
  omega

/-! ## `RLTileSheet::GetFrame` -/

/-- When the offset `tileID - StartFrame` is negative and representable, the
guard `index >= 0` fails and the zero rectangle is returned. -/
theorem GetFrame_below_no_overflow {F : Type} [Zero F] (s : RLTileSheet F) (tileID : Int)
    (hlt : tileID < s.StartFrame) (hfit : -2147483648 ≤ tileID - s.StartFrame) :
    s.GetFrame tileID = some Rectangle.zero := by
  have hw : wrapInt32 (tileID - s.StartFrame) = tileID - s.StartFrame :=
    wrapInt32_eq_self _ ⟨hfit, by omega⟩
  have hneg : ¬ (tileID - s.StartFrame ≥ 0) := by omega
  simp only [RLTileSheet.GetFrame, hw]
  rw [if_neg (fun h => hneg h.1)]

/-- When `tileID` lies at or beyond `StartFrame + len(Tiles)`, the zero
rectangle is returned, whether or not the subtraction wraps. -/
theorem GetFrame_above {F : Type} [Zero F] (s : RLTileSheet F) (tileID : Int)
    (hs : isInt32 s.StartFrame) (ht : isInt32 tileID)
    (hge : s.StartFrame + s.Tiles.length ≤ tileID) :
    s.GetFrame tileID = some Rectangle.zero := by
  unfold isInt32 at hs ht
  have hcond : ¬ (wrapInt32 (tileID - s.StartFrame) ≥ 0 ∧
      (wrapInt32 (tileID - s.StartFrame)).toNat < s.Tiles.length) := by
    unfold wrapInt32
    omega
  simp only [RLTileSheet.GetFrame]
  rw [if_neg hcond]

/-- Where the subtraction does not overflow, an id in range gets its rectangle:
for `StartFrame <= tileID < StartFrame + len(Tiles)` with an offset
`tileID - StartFrame` of at most 2147483647, `GetFrame(tileID)` returns exactly
the rectangle stored at `Tiles[tileID - StartFrame]`. -/
theorem GetFrame_in_range {F : Type} [Zero F] (s : RLTileSheet F) (tileID : Int)
    (hlo : s.StartFrame ≤ tileID) (hhi : tileID < s.StartFrame + s.Tiles.length)
    (hfit : tileID - s.StartFrame ≤ 2147483647) :
    ∃ r, s.Tiles[(tileID - s.StartFrame).toNat]? = some r ∧ s.GetFrame tileID = some r := by
  have hw : wrapInt32 (tileID - s.StartFrame) = tileID - s.StartFrame :=
    wrapInt32_eq_self _ ⟨by omega, hfit⟩
  have hidx : (tileID - s.StartFrame).toNat < s.Tiles.length := by omega
  refine ⟨s.Tiles.get ⟨_, hidx⟩, ?_, ?_⟩
  · exact List.getElem?_eq_getElem hidx
  · simp only [RLTileSheet.GetFrame, hw]
    rw [if_pos ⟨by omega, hidx⟩]
    exact List.getElem?_eq_getElem hidx

/-- An instance of `GetFrame_in_range`: tile 6 of the sheet with tiles 5, 6, 7
is its second rectangle. -/
theorem GetFrame_in_range_witness : smallSheet.GetFrame 6 = some ⟨32, 0, 32, 32⟩ := by
  obtain ⟨r, hr, hget⟩ := GetFrame_in_range smallSheet 6 (by decide) (by decide) (by decide)
  have hval : some (⟨32, 0, 32, 32⟩ : Rectangle Int) = some r := hr
  rw [Option.some.inj hval]
  exact hget

/-- Claim C1 fails on the code: the sheet `hugeSheet` and the tile id 2147483647
are values of their types, the id lies in `[StartFrame, StartFrame + len(Tiles))`
and `Tiles[tileID - StartFrame]` is the rectangle `{1,1,1,1}`, but the `int`
subtraction `2147483647 - (-1)` overflows, wraps to `-2147483648`, the guard
`index >= 0` rejects the id and `GetFrame` returns `{0,0,0,0}`. -/
theorem GetFrame_in_range_fails_on_hugeSheet :
    isInt32 hugeSheet.StartFrame ∧ isInt32 2147483647 ∧
    hugeSheet.StartFrame ≤ 2147483647 ∧
    (2147483647 : Int) < hugeSheet.StartFrame + hugeSheet.Tiles.length ∧
    hugeSheet.Tiles[((2147483647 : Int) - hugeSheet.StartFrame).toNat]? = some ⟨1, 1, 1, 1⟩ ∧
    hugeSheet.GetFrame 2147483647 = some ⟨0, 0, 0, 0⟩ ∧
    (⟨1, 1, 1, 1⟩ : Rectangle Int) ≠ ⟨0, 0, 0, 0⟩ := by
  have hlen : hugeSheet.Tiles.length = 2147483649 :=
    List.length_replicate 2147483649 _
  have hsf : hugeSheet.StartFrame = -1 := rfl
  have hw : wrapInt32 (2147483647 - -1) = -2147483648 := by
    unfold wrapInt32; omega
  have h2 : ((2147483647 : Int) - -1).toNat = 2147483648 := by omega
  have hneg : ¬ ((-2147483648 : Int) ≥ 0 ∧
      (-2147483648 : Int).toNat < hugeSheet.Tiles.length) := by
    intro h; omega
  refine ⟨?_, ?_, ?_, ?_, ?_, ?_, ?_⟩
  · rw [hsf]; unfold isInt32; omega
  · unfold isInt32; omega
  · rw [hsf]; omega
  · rw [hsf, hlen]; omega
  · rw [hsf, h2]
    exact (List.getElem?_replicate).trans (if_pos (by omega))
  · unfold RLTileSheet.GetFrame
    rw [hsf, hw, if_neg hneg]
    rfl
  · intro h
    have hx := congrArg Rectangle.x h
    simp at hx

/-- Claim C2 fails on the code: the tile id `-2147483648` lies below
`StartFrame = 2147483647`, outside `[StartFrame, StartFrame + 2)`, but the
offset `-2147483648 - 2147483647` wraps to `1` and `GetFrame` returns the
stored rectangle `Tiles[1]`, not the zero rectangle. -/
theorem GetFrame_out_of_range_wraps :
    isInt32 lastSheet.StartFrame ∧ isInt32 (-2147483648) ∧
    (-2147483648 : Int) < lastSheet.StartFrame ∧
    wrapInt32 (-2147483648 - lastSheet.StartFrame) = 1 ∧
    lastSheet.GetFrame (-2147483648) = some ⟨2, 2, 2, 2⟩ ∧
    (⟨2, 2, 2, 2⟩ : Rectangle Int) ≠ Rectangle.zero := by
  decide

/-! ## `RLTileObject::GetProperty` -/

/-- The loop started at position `k` either finds nothing, and then no element
has the name, or stops at the first element with the name, `i` places on. -/
theorem findProperty_spec (name : String) (l : List RLTileObject.Property) (k : Nat) :
    (RLTileObject.findProperty name l k = none ∧ ∀ p ∈ l, p.Name ≠ name) ∨
    (∃ i p, RLTileObject.findProperty name l k = some (k + i, p) ∧ l[i]? = some p ∧
      p.Name = name ∧ ∀ j, j < i → ∀ q, l[j]? = some q → q.Name ≠ name) := by
  induction l generalizing k with
  | nil =>
    left
    exact ⟨rfl, fun p hp => absurd hp (List.not_mem_nil p)⟩
  | cons a rest ih =>
    by_cases ha : a.Name = name
    · right
      refine ⟨0, a, ?_, List.getElem?_cons_zero, ha, ?_⟩
      · simp [RLTileObject.findProperty, ha]
      · intro j hj
        exact absurd hj (Nat.not_lt_zero j)
    · have hstep : RLTileObject.findProperty name (a :: rest) k =
          RLTileObject.findProperty name rest (k + 1) := by
        simp [RLTileObject.findProperty, ha]
      rcases ih (k + 1) with ⟨hnone, hall⟩ | ⟨i, p, hsome, hget, hname, hfirst⟩
      · left
        refine ⟨hstep.trans hnone, ?_⟩
        intro p hp
        rcases List.mem_cons.mp hp with rfl | hp
        · exact ha
        · exact hall p hp
      · right
        refine ⟨i + 1, p, ?_, ?_, hname, ?_⟩
        · rw [hstep, hsome]
          congr 2
          omega
        · simpa using hget
        · intro j hj q hq
          cases j with
          | zero =>
            have : a = q := by simpa using hq
            exact this ▸ ha
          | succ j =>
            exact hfirst j (by omega) q (by simpa using hq)

/-- Claim C3: when some property of the object has the name, `GetProperty(name)`
returns a pointer to the first such property in declaration order: the element
`Properties[i]` whose name is `name`, no `Properties[j]` with `j < i` having that
name. -/
theorem GetProperty_first {F : Type} [Zero F] (o : RLTileObject F) (name : String)
    (h : ∃ p ∈ o.Properties, p.Name = name) :
    ∃ i p, o.GetProperty name = some (i, p) ∧ o.Properties[i]? = some p ∧
      p.Name = name ∧ ∀ j, j < i → ∀ q, o.Properties[j]? = some q → q.Name ≠ name := by
  rcases findProperty_spec name o.Properties 0 with ⟨_, hall⟩ | ⟨i, p, hsome, hrest⟩
  · obtain ⟨p, hp, hname⟩ := h
    exact absurd hname (hall p hp)
  · refine ⟨i, p, ?_, hrest⟩
    unfold RLTileObject.GetProperty
    rw [hsome, Nat.zero_add]

/-- Witness of `GetProperty_first`: of the two `hp` properties of `sampleObject`
the first one, at position 1, is found. -/
theorem GetProperty_first_witness :
    sampleObject.GetProperty "hp" = some (1, ⟨"hp", "int", "7"⟩) := by
  obtain ⟨i, p, hget, hp, _, hfirst⟩ :=
    GetProperty_first sampleObject "hp" ⟨⟨"hp", "int", "7"⟩, by decide, rfl⟩
  have hi : i = 1 := by
    rcases Nat.lt_trichotomy i 1 with hlt | heq | hgt
    · have h0 : i = 0 := by omega
      rw [h0] at hp
      have hname : p.Name = "hp" := by assumption
      have hp0 : some (⟨"speed", "float", "1.5"⟩ : RLTileObject.Property) = some p := hp
      rw [← Option.some.inj hp0] at hname
      exact absurd hname (by decide)
    · exact heq
    · exact absurd rfl (hfirst 1 hgt ⟨"hp", "int", "7"⟩ rfl)
  rw [hi] at hp hget
  have hp1 : some (⟨"hp", "int", "7"⟩ : RLTileObject.Property) = some p := hp
  rw [Option.some.inj hp1]
  exact hget

/-- Claim C4: `GetProperty(name)` is `nullptr` if and only if no element of
`Properties` has the name `name`. -/
theorem GetProperty_none_iff {F : Type} [Zero F] (o : RLTileObject F) (name : String) :
    o.GetProperty name = none ↔ ∀ p ∈ o.Properties, p.Name ≠ name := by
  unfold RLTileObject.GetProperty
  rcases findProperty_spec name o.Properties 0 with ⟨hnone, hall⟩ | ⟨i, p, hsome, hget, hname, _⟩
  · exact ⟨fun _ => hall, fun _ => hnone⟩
  · constructor
    · intro hnone
      rw [hsome] at hnone
      exact absurd hnone (by simp)
    · intro hall
      exact absurd hname (hall p (List.getElem?_mem hget))

/-- Witness of `GetProperty_none_iff`: an object with no properties has no
property `missing`, and `sampleObject` has none either. -/
theorem GetProperty_none_iff_witness :
    ({} : RLTileObject Int).GetProperty "missing" = none ∧
    sampleObject.GetProperty "missing" = none :=
  ⟨(GetProperty_none_iff {} "missing").mpr (fun p hp => absurd hp (List.not_mem_nil p)),
   (GetProperty_none_iff sampleObject "missing").mpr (by decide)⟩

/-! ## The typed accessors of `Property` -/

/-- Claim C5: `GetInt` returns 0 whenever `Type` is not `"int"` or `Value` is
empty, and `GetFloat` returns 0 whenever `Type` is not `"float"` or `Value` is
empty. -/
theorem GetInt_GetFloat_default {F : Type} [Zero F] (atof : String → F)
    (p : RLTileObject.Property) :
    ((p.Type_ ≠ "int" ∨ p.Value = "") → p.GetInt = 0) ∧
    ((p.Type_ ≠ "float" ∨ p.Value = "") → p.GetFloat atof = 0) := by
  have hempty : p.Value = "" → p.Value.length = 0 := by
    intro h
    rw [h]
    rfl
  constructor
  · intro h
    unfold RLTileObject.Property.GetInt
    exact if_pos (h.imp id hempty)
  · intro h
    unfold RLTileObject.Property.GetFloat
    exact if_pos (h.imp id hempty)

/-- Witness of `GetInt_GetFloat_default`: a string property read as an integer,
and an empty float property read as a float. -/
theorem GetInt_GetFloat_default_witness :
    RLTileObject.Property.GetInt ⟨"title", "string", "12"⟩ = 0 ∧
    RLTileObject.Property.GetFloat (fun _ => (1 : Int)) ⟨"ratio", "float", ""⟩ = 0 :=
  ⟨(GetInt_GetFloat_default (fun _ => (1 : Int)) ⟨"title", "string", "12"⟩).1
      (Or.inl (by decide)),
   (GetInt_GetFloat_default (fun _ => (1 : Int)) ⟨"ratio", "float", ""⟩).2
      (Or.inr rfl)⟩

/-- A text without NUL character is its own C string. -/
theorem c_str_eq_self (s : String) (h : ∀ c ∈ s.data, c ≠ Char.ofNat 0) : c_str s = s := by
  unfold c_str
  have hall : s.data.takeWhile (fun c => decide (c ≠ Char.ofNat 0)) = s.data := by
    rw [List.takeWhile_eq_self_iff]
    intro c hc
    exact decide_eq_true (h c hc)
  rw [hall]

/-- Claim C6, amended: for every Property, whatever its `Type` tag (also one
that is not `"string"`), `GetString` returns the stored `Value` text unchanged,
`Value` being a text without NUL character; there is no empty-string default
for a mismatched type, and the result is empty only when `Value` is empty. -/
theorem GetString_eq_Value (p : RLTileObject.Property)
    (h : ∀ c ∈ p.Value.data, c ≠ Char.ofNat 0) :
    p.GetString = p.Value ∧ (p.GetString = "" ↔ p.Value = "") := by
  have heq : p.GetString = p.Value := by
    unfold RLTileObject.Property.GetString
    exact c_str_eq_self p.Value h
  exact ⟨heq, by rw [heq]⟩

/-- Witness of `GetString_eq_Value`: the integer property `hp` with value `7`. -/
theorem GetString_eq_Value_witness :
    RLTileObject.Property.GetString ⟨"hp", "int", "7"⟩ = "7" :=
  (GetString_eq_Value ⟨"hp", "int", "7"⟩ (by decide)).1

/-- Claim C6 as stated fails: the property `hp` has `Type` `"int"`, not
`"string"`, and `GetString` returns its text `"7"`, not the empty string. -/
theorem GetString_int_not_empty :
    (⟨"hp", "int", "7"⟩ : RLTileObject.Property).Type_ ≠ "string" ∧
    RLTileObject.Property.GetString ⟨"hp", "int", "7"⟩ ≠ "" := by
  decide

/-! ## `atoi` on decimal texts -/

/-- The character of a decimal digit: its code, and the classes it belongs to. -/
theorem digitChar_facts (d : Nat) (hd : d < 10) :
    (Nat.digitChar d).toNat = d + 48 ∧ isdigit (Nat.digitChar d) = true ∧
    isspace (Nat.digitChar d) = false ∧ Nat.digitChar d ≠ Char.ofNat 0 ∧
    Nat.digitChar d ≠ '-' ∧ Nat.digitChar d ≠ '+' := by
  interval_cases d <;> decide

/-- The digit loop of `atoi` reads a run of decimal digits as the number they
denote, appended to what it has read before. -/
theorem atoiDigits_digitChars (ds : List Nat) (hd : ∀ d ∈ ds, d < 10) (acc : Int) :
    atoiDigits (ds.map Nat.digitChar) acc =
      acc * 10 ^ ds.length + ((Nat.ofDigits 10 ds.reverse : Nat) : Int) := by
  induction ds generalizing acc with
  | nil => simp [atoiDigits]
  | cons d rest ih =>
    have hdlt : d < 10 := hd d (List.mem_cons_self d rest)
    obtain ⟨hcode, hdig, _⟩ := digitChar_facts d hdlt
    have hrest : ∀ e ∈ rest, e < 10 := fun e he => hd e (List.mem_cons_of_mem d he)
    rw [List.map_cons, atoiDigits, if_pos hdig, ih hrest, hcode, List.reverse_cons,
      Nat.ofDigits_append, Nat.ofDigits_singleton, List.length_reverse, List.length_cons]
    push_cast
    ring

/-- On a decimal text `atoi` returns the integer the text denotes, reduced to
32 bits. -/
theorem atoi_decimalText (neg : Bool) (ds : List Nat) (hne : ds ≠ [])
    (hd : ∀ d ∈ ds, d < 10) :
    atoi (c_str (decimalText neg ds)) = wrapInt32 (decimalValue neg ds) := by
  have hnul : ∀ c ∈ (decimalText neg ds).data, c ≠ Char.ofNat 0 := by
    intro c hc
    simp only [decimalText, List.mem_append, List.mem_map] at hc
    rcases hc with hc | ⟨d, hdm, rfl⟩
    · cases neg
      · simp at hc
      · simp at hc
        rw [hc]
        decide
    · exact (digitChar_facts d (hd d hdm)).2.2.2.1
  rw [c_str_eq_self _ hnul]
  unfold atoi
  congr 1
  cases neg with
  | true =>
    have hsp : isspace '-' = false := by decide
    simp only [decimalText, decimalValue, if_true, List.singleton_append,
      List.dropWhile_cons, hsp, Bool.false_eq_true, if_false, atoiSigned]
    rw [atoiDigits_digitChars ds hd 0]
    simp
  | false =>
    cases ds with
    | nil => exact absurd rfl hne
    | cons d rest =>
      obtain ⟨_, _, hsp, _, hminus, hplus⟩ := digitChar_facts d (hd d (List.mem_cons_self d rest))
      have hrun := atoiDigits_digitChars (d :: rest) hd 0
      rw [List.map_cons] at hrun
      simp only [decimalText, decimalValue, Bool.false_eq_true, if_false, List.nil_append,
        List.map_cons, List.dropWhile_cons, hsp, atoiSigned, hminus, hplus]
      rw [hrun]
      simp

/-- Claim C7: for a Property with `Type` `"int"` whose `Value` is the decimal
text of an integer `n` in the range of `int` (an optional leading `-`, then one
or more decimal digits), `GetInt` returns `n`. -/
theorem GetInt_decimal (name : String) (neg : Bool) (ds : List Nat) (hne : ds ≠ [])
    (hd : ∀ d ∈ ds, d < 10) (hfit : isInt32 (decimalValue neg ds)) :
    RLTileObject.Property.GetInt ⟨name, "int", decimalText neg ds⟩ = decimalValue neg ds := by
  have hlen : (decimalText neg ds).length ≠ 0 := by
    cases ds with
    | nil => exact absurd rfl hne
    | cons d rest => simp [decimalText, String.length]
  unfold RLTileObject.Property.GetInt
  rw [if_neg (by simp [hlen]), atoi_decimalText neg ds hne hd, wrapInt32_eq_self _ hfit]

/-- Witness of `GetInt_decimal`: the property `hp` with `Type` `"int"` and
`Value` `"7"` yields 7, and the text `-120` yields -120. -/
theorem GetInt_decimal_witness :
    RLTileObject.Property.GetInt ⟨"hp", "int", "7"⟩ = 7 ∧
    RLTileObject.Property.GetInt ⟨"dy", "int", "-120"⟩ = -120 :=
  ⟨GetInt_decimal "hp" false [7] (by decide) (by decide) (by decide),
   GetInt_decimal "dy" true [1, 2, 0] (by decide) (by decide) (by decide)⟩

/-! ## `RLTile` and `RLTileMap::GetTile` -/

/-- Claim C8: a default-constructed `RLTile` is the empty sentinel: its `TileID`
is -1 (a value of `int16_t`) and its three orientation flags are false. -/
theorem RLTile_default :
    ({} : RLTile).TileID = -1 ∧ isInt16 ({} : RLTile).TileID ∧
    ({} : RLTile).FlipX = false ∧ ({} : RLTile).FilpY = false ∧
    ({} : RLTile).FlipDiag = false := by
  decide

/-- A key that no entry of the map has is not found. -/
theorem StdMap_find_none {V : Type} (m : StdMap V) (key : Int)
    (h : ∀ e ∈ m, e.1 ≠ key) : StdMap.find m key = none := by
  induction m with
  | nil => rfl
  | cons e rest ih =>
    obtain ⟨k, v⟩ := e
    have hk : k ≠ key := h (k, v) (List.mem_cons_self _ _)
    have hrest : ∀ e ∈ rest, e.1 ≠ key := fun e he => h e (List.mem_cons_of_mem _ he)
    simp only [StdMap.find, if_neg hk]
    exact ih hrest

/-- A value found under a key is the value of an entry with that key. -/
theorem StdMap_find_some {V : Type} (m : StdMap V) (key : Int) (v : V)
    (h : StdMap.find m key = some v) : (key, v) ∈ m := by
  induction m with
  | nil => simp [StdMap.find] at h
  | cons e rest ih =>
    obtain ⟨k, w⟩ := e
    by_cases hk : k = key
    · simp only [StdMap.find, if_pos hk, Option.some.injEq] at h
      rw [hk, h]
      exact List.mem_cons_self _ _
    · simp only [StdMap.find, if_neg hk] at h
      exact List.mem_cons_of_mem _ (ih h)

/-- The row-major index of a cell inside a `W` by `H` grid is below `W * H`. -/
theorem rowMajor_lt (W H x y : Int) (hx0 : 0 ≤ x) (hx1 : x < W) (hy0 : 0 ≤ y)
    (hy1 : y < H) : 0 ≤ y * W + x ∧ y * W + x < W * H := by
  have hW : 0 ≤ W := by omega
  have h1 : 0 ≤ y * W := Int.mul_nonneg hy0 hW
  have h2 : (y + 1) * W ≤ H * W := Int.mul_le_mul_of_nonneg_right (by omega) hW
  have h3 : (y + 1) * W = y * W + W := by ring
  have h4 : H * W = W * H := Int.mul_comm H W
  omega

/-- Claim C9: for a `layerID` that keys a grid layer in `Layers` whose `Tiles`
has `Width*Height` elements, and `(x, y)` with `0 <= x < Width` and
`0 <= y < Height`, `GetTile(x, y, layerID)` returns exactly the tile stored at
the row-major index `y*Width + x` of that layer. -/
theorem GetTile_in_bounds {F : Type} [Zero F] (m : RLTileMap F) (x y layerID : Int)
    (layer : RLTileLayer) (hfind : StdMap.find m.Layers layerID = some layer)
    (hgrid : layer.IsObject = false)
    (hlen : (layer.Tiles.length : Int) = layer.Width * layer.Height)
    (hx0 : 0 ≤ x) (hx1 : x < layer.Width) (hy0 : 0 ≤ y) (hy1 : y < layer.Height) :
    ∃ t, layer.Tiles[(y * layer.Width + x).toNat]? = some t ∧
      m.GetTile x y layerID = some t := by
  obtain ⟨hnn, hlt⟩ := rowMajor_lt layer.Width layer.Height x y hx0 hx1 hy0 hy1
  have hidx : (y * layer.Width + x).toNat < layer.Tiles.length := by omega
  have hin : ¬ (x < 0 ∨ layer.Width ≤ x ∨ y < 0 ∨ layer.Height ≤ y) := by omega
  refine ⟨layer.Tiles.get ⟨_, hidx⟩, List.getElem?_eq_getElem hidx, ?_⟩
  unfold RLTileMap.GetTile
  rw [hfind]
  simp only [hgrid, Bool.false_eq_true, if_false, if_neg hin]
  exact List.getElem?_eq_getElem hidx

/-- Witness of `GetTile_in_bounds`: the cell (1, 0) of layer 3 of `sampleMap`
holds the flipped tile 4, at index 1. -/
theorem GetTile_in_bounds_witness :
    sampleMap.GetTile 1 0 3 = some { TileID := 4, FlipX := true } := by
  obtain ⟨t, ht, hget⟩ := GetTile_in_bounds sampleMap 1 0 3 gridLayer
    (by decide) (by decide) (by decide) (by decide) (by decide) (by decide) (by decide)
  have hval : some ({ TileID := 4, FlipX := true } : RLTile) = some t := ht
  rw [Option.some.inj hval]
  exact hget

/-- Claim C10: when `layerID` is not a key of `Layers`, or the layer under it is
not a grid layer, or `(x, y)` lies outside `[0,Width) x [0,Height)`,
`GetTile(x, y, layerID)` returns a tile, with `TileID` -1 and all flip flags
false, and no read of `Tiles` fails. -/
theorem GetTile_default {F : Type} [Zero F] (m : RLTileMap F) (x y layerID : Int)
    (h : (∀ e ∈ m.Layers, e.1 ≠ layerID) ∨
      ∃ layer, StdMap.find m.Layers layerID = some layer ∧
        (layer.IsObject = true ∨ x < 0 ∨ layer.Width ≤ x ∨ y < 0 ∨ layer.Height ≤ y)) :
    ∃ t, m.GetTile x y layerID = some t ∧ t.TileID = -1 ∧ t.FlipX = false ∧
      t.FilpY = false ∧ t.FlipDiag = false := by
  refine ⟨{}, ?_, rfl, rfl, rfl, rfl⟩
  unfold RLTileMap.GetTile
  rcases h with hkey | ⟨layer, hfind, hobj | hout⟩
  · rw [StdMap_find_none m.Layers layerID hkey]
  · rw [hfind]
    simp only [hobj, if_true]
  · rw [hfind]
    by_cases hobj : layer.IsObject = true
    · simp only [hobj, if_true]
    · simp only [hobj, if_false, if_pos hout, ite_self]

/-- Witness of `GetTile_default`: in `sampleMap` the unknown layer 9, the object
layer 4 and the cell (2, 0) of the 2 by 2 layer 3 all give the default tile. -/
theorem GetTile_default_witness :
    (∃ t, sampleMap.GetTile 0 0 9 = some t ∧ t.TileID = -1 ∧ t.FlipX = false ∧
      t.FilpY = false ∧ t.FlipDiag = false) ∧
    (∃ t, sampleMap.GetTile 0 0 4 = some t ∧ t.TileID = -1 ∧ t.FlipX = false ∧
      t.FilpY = false ∧ t.FlipDiag = false) ∧
    (∃ t, sampleMap.GetTile 2 0 3 = some t ∧ t.TileID = -1 ∧ t.FlipX = false ∧
      t.FilpY = false ∧ t.FlipDiag = false) :=
  ⟨GetTile_default sampleMap 0 0 9 (Or.inl (by decide)),
   GetTile_default sampleMap 0 0 4 (Or.inr ⟨markedLayer, by decide, Or.inl rfl⟩),
   GetTile_default sampleMap 2 0 3
     (Or.inr ⟨gridLayer, by decide, Or.inr (Or.inr (Or.inl (by decide)))⟩)⟩

/-! ## `RLTileLayer::GetDisplayLocation` -/

/-- Claim C11: for every layer and all integers `x`, `y`, in particular the
non-negative ones, `GetDisplayLocation(x, y, Orthographic)` is the pair of the
integer products `(x * TileWidth, y * TileHeight)`. -/
theorem GetDisplayLocation_orthographic {F : Type} [Field F] (l : RLTileLayer) (x y : Int) :
    (l.GetDisplayLocation x y RLTiledMapTypes.Orthographic : Vector2 F) =
      ⟨((x * l.TileWidth : Int) : F), ((y * l.TileHeight : Int) : F)⟩ := by
  simp only [RLTileLayer.GetDisplayLocation]
  push_cast
  rfl

/-- Claim C12: in Isometric mode the display locations of the cells `(x, y)` and
`(x+1, y)` differ by `(TileWidth/2, TileHeight/2)`, and those of `(x, y)` and
`(x, y+1)` by `(-TileWidth/2, TileHeight/2)`. -/
theorem GetDisplayLocation_isometric_steps {F : Type} [Field F] (l : RLTileLayer)
    (x y : Int) :
    (l.GetDisplayLocation (x + 1) y RLTiledMapTypes.Isometric : Vector2 F).x -
        (l.GetDisplayLocation x y RLTiledMapTypes.Isometric : Vector2 F).x =
      (l.TileWidth : F) / 2 ∧
    (l.GetDisplayLocation (x + 1) y RLTiledMapTypes.Isometric : Vector2 F).y -
        (l.GetDisplayLocation x y RLTiledMapTypes.Isometric : Vector2 F).y =
      (l.TileHeight : F) / 2 ∧
    (l.GetDisplayLocation x (y + 1) RLTiledMapTypes.Isometric : Vector2 F).x -
        (l.GetDisplayLocation x y RLTiledMapTypes.Isometric : Vector2 F).x =
      -(l.TileWidth : F) / 2 ∧
    (l.GetDisplayLocation x (y + 1) RLTiledMapTypes.Isometric : Vector2 F).y -
        (l.GetDisplayLocation x y RLTiledMapTypes.Isometric : Vector2 F).y =
      (l.TileHeight : F) / 2 := by
  simp only [RLTileLayer.GetDisplayLocation]
  push_cast
  refine ⟨?_, ?_, ?_, ?_⟩ <;> ring

/-! ## `RLTileSheet::GetFrame`: totality and the 16-bit tile ids -/

/-- Claim C13: `GetFrame` always returns a rectangle, and whenever the branch
that reads `Tiles[index]` is taken, `0 <= index < len(Tiles)` holds and the read
succeeds. -/
theorem GetFrame_total {F : Type} [Zero F] (s : RLTileSheet F) (tileID : Int) :
    (∃ r, s.GetFrame tileID = some r) ∧
    ((wrapInt32 (tileID - s.StartFrame) ≥ 0 ∧
        (wrapInt32 (tileID - s.StartFrame)).toNat < s.Tiles.length) →
      0 ≤ wrapInt32 (tileID - s.StartFrame) ∧
      wrapInt32 (tileID - s.StartFrame) < (s.Tiles.length : Int) ∧
      ∃ r, s.Tiles[(wrapInt32 (tileID - s.StartFrame)).toNat]? = some r ∧
        s.GetFrame tileID = some r) := by
  by_cases hc : wrapInt32 (tileID - s.StartFrame) ≥ 0 ∧
      (wrapInt32 (tileID - s.StartFrame)).toNat < s.Tiles.length
  · have hread : s.Tiles[(wrapInt32 (tileID - s.StartFrame)).toNat]? =
        some (s.Tiles.get ⟨_, hc.2⟩) := List.getElem?_eq_getElem hc.2
    have hget : s.GetFrame tileID = some (s.Tiles.get ⟨_, hc.2⟩) := by
      simp only [RLTileSheet.GetFrame]
      rw [if_pos hc]
      exact hread
    refine ⟨⟨_, hget⟩, fun _ => ⟨hc.1, ?_, _, hread, hget⟩⟩
    have h1 := hc.1
    have h2 := hc.2
    omega
  · refine ⟨⟨Rectangle.zero, ?_⟩, fun h => absurd h hc⟩
    simp only [RLTileSheet.GetFrame]
    rw [if_neg hc]

/-- Claim C17: for every tile sheet with `StartFrame >= 0`, `GetFrame(-1)`
returns the zero rectangle, and so does `GetFrame` applied to the `TileID` of a
default `RLTile`. -/
theorem GetFrame_empty_tile {F : Type} [Zero F] (s : RLTileSheet F)
    (hs : isInt32 s.StartFrame) (h0 : 0 ≤ s.StartFrame) :
    s.GetFrame (-1) = some Rectangle.zero ∧
    s.GetFrame ({} : RLTile).TileID = some Rectangle.zero := by
  have hfit : (-2147483648 : Int) ≤ -1 - s.StartFrame := by
    unfold isInt32 at hs
    omega
  have h := GetFrame_below_no_overflow s (-1) (by omega) hfit
  exact ⟨h, h⟩

/-- Witness of `GetFrame_empty_tile`: the sheet with tiles 5, 6, 7. -/
theorem GetFrame_empty_tile_witness :
    smallSheet.GetFrame (-1) = some ⟨0, 0, 0, 0⟩ ∧
    smallSheet.GetFrame ({} : RLTile).TileID = some ⟨0, 0, 0, 0⟩ :=
  GetFrame_empty_tile smallSheet (by decide) (by decide)

/-- Where the subtraction does not overflow into the vector, a 16-bit id is
rejected: for an `RLTile` `t` (its `TileID` a value of `int16_t`) and a tile
sheet with `StartFrame > 32767` that either has `StartFrame <= 2147450880` or
holds at most 2147450881 rectangles, `GetFrame(t.TileID)` returns the zero
rectangle. -/
theorem GetFrame_int16_id {F : Type} [Zero F] (t : RLTile) (s : RLTileSheet F)
    (ht : isInt16 t.TileID) (hs : isInt32 s.StartFrame) (hgt : 32767 < s.StartFrame)
    (hfit : s.StartFrame ≤ 2147450880 ∨ s.Tiles.length ≤ 2147450881) :
    s.GetFrame t.TileID = some Rectangle.zero := by
  unfold isInt16 at ht
  unfold isInt32 at hs
  have hcond : ¬ (wrapInt32 (t.TileID - s.StartFrame) ≥ 0 ∧
      (wrapInt32 (t.TileID - s.StartFrame)).toNat < s.Tiles.length) := by
    unfold wrapInt32
    omega
  simp only [RLTileSheet.GetFrame]
  rw [if_neg hcond]

/-- Two instances of `GetFrame_int16_id`: tile id 7 on a two-tile sheet that
starts at the largest `int`, and tile id -32768 on a sheet that starts at 40000. -/
theorem GetFrame_int16_id_witness :
    lastSheet.GetFrame ({ TileID := 7 } : RLTile).TileID = some ⟨0, 0, 0, 0⟩ ∧
    lateSheet.GetFrame ({ TileID := -32768 } : RLTile).TileID = some ⟨0, 0, 0, 0⟩ :=
  ⟨GetFrame_int16_id { TileID := 7 } lastSheet (by decide) (by decide) (by decide)
      (Or.inr (by decide)),
   GetFrame_int16_id { TileID := -32768 } lateSheet (by decide) (by decide) (by decide)
      (Or.inl (by decide))⟩

/-- Claim C19 fails on the code: `-32768` is a value of `int16_t` and `wideSheet`
has `StartFrame = 2147483647 > 32767`, so the id lies below the sheet, but the
`int` subtraction `-32768 - 2147483647` overflows and wraps to `2147450881`, an
index inside the `2147450882` rectangles of the sheet; the guard passes and
`GetFrame` returns the stored rectangle `{1,1,1,1}`, not `{0,0,0,0}`. -/
theorem GetFrame_int16_id_fails_on_wideSheet :
    isInt16 ({ TileID := -32768 } : RLTile).TileID ∧ isInt32 wideSheet.StartFrame ∧
    32767 < wideSheet.StartFrame ∧
    wideSheet.GetFrame ({ TileID := -32768 } : RLTile).TileID = some ⟨1, 1, 1, 1⟩ ∧
    (⟨1, 1, 1, 1⟩ : Rectangle Int) ≠ Rectangle.zero := by
  have hlen : wideSheet.Tiles.length = 2147450882 :=
    List.length_replicate 2147450882 _
  have hsf : wideSheet.StartFrame = 2147483647 := rfl
  have hid : ({ TileID := -32768 } : RLTile).TileID = -32768 := rfl
  have hw : wrapInt32 (-32768 - 2147483647) = 2147450881 := by
    unfold wrapInt32; omega
  have h2 : (2147450881 : Int).toNat = 2147450881 := by omega
  have hpos : (2147450881 : Int) ≥ 0 ∧ (2147450881 : Int).toNat < wideSheet.Tiles.length := by
    rw [hlen, h2]
    omega
  refine ⟨?_, ?_, ?_, ?_, ?_⟩
  · rw [hid]; unfold isInt16; omega
  · rw [hsf]; unfold isInt32; omega
  · rw [hsf]; omega
  · unfold RLTileSheet.GetFrame
    rw [hid, hsf, hw, if_pos hpos, h2]
    exact (List.getElem?_replicate).trans (if_pos (by omega))
  · intro h
    have hx := congrArg Rectangle.x h
    simp [Rectangle.zero] at hx

/-! ## Default construction -/

/-- Claim C15: a newly constructed `RLTileObjectLayer` has `IsObject == true`,
an empty `ObjectGroup` and empty `Tiles`; a default-constructed `RLTileLayer`
has `IsObject == false`. -/
theorem IsObject_by_construction {F : Type} [Zero F] :
    ({} : RLTileObjectLayer F).IsObject = true ∧
    ({} : RLTileObjectLayer F).ObjectGroup = [] ∧
    ({} : RLTileObjectLayer F).Tiles = [] ∧
    ({} : RLTileLayer).IsObject = false :=
  ⟨rfl, rfl, rfl, rfl⟩

/-- Claim C16: a default-constructed `RLTileObject` has `GidTile` -1, `Visible`
true, `Subtype` `None`, an empty `Template`, and `GetProperty(name)` is
`nullptr` for every name. -/
theorem RLTileObject_default {F : Type} [Zero F] :
    ({} : RLTileObject F).GidTile = -1 ∧ ({} : RLTileObject F).Visible = true ∧
    ({} : RLTileObject F).Subtype = RLTileObject.SubTypes.None ∧
    ({} : RLTileObject F).Template = "" ∧
    ∀ name : String, ({} : RLTileObject F).GetProperty name = none :=
  ⟨rfl, rfl, rfl, rfl, fun _ => rfl⟩

/-! ## `atoi` on texts that are not numbers -/

/-- A white-space character is not the NUL character. -/
theorem isspace_ne_nul (c : Char) (h : isspace c = true) : c ≠ Char.ofNat 0 := by
  intro hc
  rw [hc] at h
  exact absurd h (by decide)

/-- The digit loop reads nothing from a C string that does not start with a
decimal digit. -/
theorem atoiDigits_no_digit (cs : List Char) (acc : Int)
    (h : startsWithDigit cs = false) :
    atoiDigits (cs.takeWhile (fun c => c ≠ Char.ofNat 0)) acc = acc := by
  cases cs with
  | nil => rfl
  | cons d ds =>
    have hd : isdigit d = false := h
    by_cases hnul : d = Char.ofNat 0
    · simp [List.takeWhile_cons, hnul, atoiDigits]
    · simp [List.takeWhile_cons, hnul, atoiDigits, hd]

/-- After white space and an optional sign, a C string that does not go on with
a decimal digit is read as 0. -/
theorem atoiSigned_no_digit (l : List Char)
    (h : startsWithDigit (dropSign (l.dropWhile isspace)) = false) :
    atoiSigned ((l.takeWhile (fun c => c ≠ Char.ofNat 0)).dropWhile isspace) = 0 := by
  induction l with
  | nil => rfl
  | cons c cs ih =>
    by_cases hsp : isspace c = true
    · have hnul : c ≠ Char.ofNat 0 := isspace_ne_nul c hsp
      rw [List.dropWhile_cons, if_pos hsp] at h
      simp only [List.takeWhile_cons, hnul, ne_eq, not_false_eq_true, decide_True, if_true,
        List.dropWhile_cons, hsp]
      exact ih h
    · rw [List.dropWhile_cons, if_neg hsp] at h
      by_cases hnul : c = Char.ofNat 0
      · simp [List.takeWhile_cons, hnul, atoiSigned]
      · simp only [List.takeWhile_cons, hnul, ne_eq, not_false_eq_true, decide_True, if_true,
          List.dropWhile_cons, hsp, Bool.false_eq_true, if_false, atoiSigned]
        by_cases hminus : c = '-'
        · have hrest : startsWithDigit cs = false := by
            simpa [dropSign, hminus] using h
          rw [if_pos hminus, atoiDigits_no_digit cs 0 hrest]
          rfl
        · by_cases hplus : c = '+'
          · have hrest : startsWithDigit cs = false := by
              simpa [dropSign, hplus] using h
            rw [if_neg hminus, if_pos hplus, atoiDigits_no_digit cs 0 hrest]
          · have hd : isdigit c = false := by
              simpa [dropSign, hminus, hplus, startsWithDigit] using h
            rw [if_neg hminus, if_neg hplus, atoiDigits, if_neg (by simp [hd])]

/-- Claim C14: for a Property with `Type` `"int"` whose `Value` does not start,
after optional leading white space and an optional sign, with a decimal digit,
`GetInt` returns 0. -/
theorem GetInt_no_digit (name value : String)
    (h : startsWithDigit (dropSign (value.data.dropWhile isspace)) = false) :
    RLTileObject.Property.GetInt ⟨name, "int", value⟩ = 0 := by
  unfold RLTileObject.Property.GetInt
  by_cases hg : (⟨name, "int", value⟩ : RLTileObject.Property).Type_ ≠ "int" ∨
      (⟨name, "int", value⟩ : RLTileObject.Property).Value.length = 0
  · exact if_pos hg
  · rw [if_neg hg]
    unfold atoi c_str
    rw [atoiSigned_no_digit value.data h]
    rfl

/-- Witness of `GetInt_no_digit`: the integer properties with the texts `abc`
and ` -x1`. -/
theorem GetInt_no_digit_witness :
    RLTileObject.Property.GetInt ⟨"hp", "int", "abc"⟩ = 0 ∧
    RLTileObject.Property.GetInt ⟨"hp", "int", " -x1"⟩ = 0 :=
  ⟨GetInt_no_digit "hp" "abc" (by decide), GetInt_no_digit "hp" " -x1" (by decide)⟩

/-! ## `RLTileObject::GetProperty` on appended property lists -/

/-- A property found in `ps` is found, at the same position, in `ps ++ qs`. -/
theorem findProperty_append_some (name : String) (ps qs : List RLTileObject.Property)
    (k : Nat) (r : Nat × RLTileObject.Property)
    (h : RLTileObject.findProperty name ps k = some r) :
    RLTileObject.findProperty name (ps ++ qs) k = some r := by
  induction ps generalizing k with
  | nil => simp [RLTileObject.findProperty] at h
  | cons a rest ih =>
    by_cases ha : a.Name = name
    · simp only [RLTileObject.findProperty, if_pos ha] at h
      simp only [List.cons_append, RLTileObject.findProperty, if_pos ha]
      exact h
    · simp only [RLTileObject.findProperty, if_neg ha] at h
      simp only [List.cons_append, RLTileObject.findProperty, if_neg ha]
      exact ih (k + 1) h

/-- When the name is not in `ps`, the loop over `ps ++ qs` goes on into `qs`,
having counted the elements of `ps`. -/
theorem findProperty_append_none (name : String) (ps qs : List RLTileObject.Property)
    (k : Nat) (h : RLTileObject.findProperty name ps k = none) :
    RLTileObject.findProperty name (ps ++ qs) k =
      RLTileObject.findProperty name qs (k + ps.length) := by
  induction ps generalizing k with
  | nil => rfl
  | cons a rest ih =>
    by_cases ha : a.Name = name
    · simp [RLTileObject.findProperty, ha] at h
    · simp only [RLTileObject.findProperty, if_neg ha] at h
      simp only [List.cons_append, RLTileObject.findProperty, if_neg ha, List.length_cons]
      refine (ih (k + 1) h).trans ?_
      congr 1
      omega

/-- Starting the count `n` places later moves the position found by `n` and
leaves the element found unchanged. -/
theorem findProperty_shift (name : String) (qs : List RLTileObject.Property) (k n : Nat) :
    RLTileObject.findProperty name qs (k + n) =
      (RLTileObject.findProperty name qs k).map (fun r => (r.1 + n, r.2)) := by
  induction qs generalizing k with
  | nil => rfl
  | cons a rest ih =>
    by_cases ha : a.Name = name
    · simp [RLTileObject.findProperty, ha]
    · simp only [RLTileObject.findProperty, if_neg ha]
      rw [← ih (k + 1)]
      congr 1
      omega

/-- Claim C18: earlier declarations shadow later ones. If `GetProperty(name)`
finds a property among `ps`, it returns the same property, at the same position,
among `ps ++ qs`; if it finds none among `ps`, its result among `ps ++ qs` is the
result of the lookup among `qs`: not found, or the same element of `qs`, which
stands `len(ps)` places later in `ps ++ qs`. -/
theorem GetProperty_append {F : Type} [Zero F] (o : RLTileObject F)
    (ps qs : List RLTileObject.Property) (name : String) :
    (∀ r, ({ o with Properties := ps } : RLTileObject F).GetProperty name = some r →
      ({ o with Properties := ps ++ qs } : RLTileObject F).GetProperty name = some r) ∧
    (({ o with Properties := ps } : RLTileObject F).GetProperty name = none →
      ({ o with Properties := ps ++ qs } : RLTileObject F).GetProperty name =
        (({ o with Properties := qs } : RLTileObject F).GetProperty name).map
          (fun r => (r.1 + ps.length, r.2)) ∧
      (({ o with Properties := ps ++ qs } : RLTileObject F).GetProperty name).map Prod.snd =
        (({ o with Properties := qs } : RLTileObject F).GetProperty name).map Prod.snd) := by
  unfold RLTileObject.GetProperty
  constructor
  · intro r h
    exact findProperty_append_some name ps qs 0 r h
  · intro h
    have happ := findProperty_append_none name ps qs 0 h
    have hshift := findProperty_shift name qs 0 ps.length
    have hres := happ.trans hshift
    refine ⟨hres, ?_⟩
    rw [hres, Option.map_map]
    rfl

/-- Witness of `GetProperty_append`: with `hp` declared twice, the first
declaration is found whatever follows it, and a name that only the appended
list declares is found there. -/
theorem GetProperty_append_witness :
    ({ sampleObject with Properties := [hpSeven] ++ [hpEight] }).GetProperty "hp" =
      some (0, hpSeven) ∧
    ({ sampleObject with Properties := [speedProp] ++ [hpEight] }).GetProperty "hp" =
      some (1, hpEight) :=
  ⟨(GetProperty_append sampleObject [hpSeven] [hpEight] "hp").1 (0, hpSeven) rfl,
   ((GetProperty_append sampleObject [speedProp] [hpEight] "hp").2 rfl).1⟩

end RLTiles
